import Mathlib

/-!
Verification development for the n8n debug agent's core subsystem: the
error classifier (`src/analyzers/errorParser.ts`), the patch engine
(`fixGenerator`), the approval store (`approvalStore`), and the Slack-route
orchestrator (`src/routes/slack.ts`).  JavaScript runtime values are
embedded as the inductive `JValue`; workflow documents, changes and
approval records are translated structure by structure from the source,
and every operation that the source performs by in-place mutation is
rendered as an explicit state-passing function returning the updated
state.
-/

set_option maxRecDepth 4000

/-- A JSON-style runtime value, the shape of the dynamic data the agent
manipulates (node objects, `newValue` payloads, settings).  Object fields
are an insertion-ordered association list, as a JavaScript object's own
enumerable string keys are.  JavaScript `undefined` is represented by
absence from an object; reference identity of two distinct object values
is not representable (see `jprimEq`). -/
inductive JValue where
  | null : JValue
  | bool (b : Bool) : JValue
  | num (n : Int) : JValue
  | str (s : String) : JValue
  | arr (elems : List JValue) : JValue
  | obj (fields : List (String × JValue)) : JValue
deriving Repr

/-- A JavaScript object modelled as its ordered own-property list. -/
abbrev JObj := List (String × JValue)

/-- First binding of a key in an association list (JS property read;
`none` plays the role of `undefined`). -/
def alistGet {α : Type} : List (String × α) → String → Option α
  | [], _ => none
  | (k, v) :: rest, key => if k = key then some v else alistGet rest key

/-- JS property write: replace the key's binding in place, appending a new
key at the end (JS objects keep first-insertion order for string keys). -/
def alistSet {α : Type} : List (String × α) → String → α → List (String × α)
  | [], key, v => [(key, v)]
  | (k, w) :: rest, key, v =>
    if k = key then (k, v) :: rest else (k, w) :: alistSet rest key v

/-- JS `delete o[key]`.  A JS object holds each key at most once, so
removing every binding coincides with the source on reachable states. -/
def alistDelete {α : Type} (l : List (String × α)) (key : String) : List (String × α) :=
  l.filter (fun kv => kv.1 ≠ key)

/-- JS truthiness. -/
def jTruthy : JValue → Bool
  | .null => false
  | .bool b => b
  | .num n => n != 0
  | .str s => s != ""
  | .arr _ => true
  | .obj _ => true

/-- `typeof v === 'object' && v !== null`: objects and arrays. -/
def jsIsMergeable : JValue → Bool
  | .obj _ => true
  | .arr _ => true
  | _ => false

/-- JS strict equality `===` between runtime values as the source uses it
(comparing names and identifiers).  Primitives compare structurally; two
object or array values compare by reference in JS, and distinct
syntactic values here always denote distinct references, so they compare
unequal. -/
def jprimEq : JValue → JValue → Bool
  | .null, .null => true
  | .bool a, .bool b => a == b
  | .num a, .num b => a == b
  | .str a, .str b => a == b
  | _, _ => false

/-- `v === s` for a string literal `s`. -/
def jStrEq (v : JValue) (s : String) : Bool :=
  match v with
  | .str t => t == s
  | _ => false

/-- JS string coercion `String(v)` as used for template literals and
object keys.  In JS an array coerces to its joined elements; every place
the source coerces a value, an array can only arrive behind a strict
equality with a primitive that has already failed, or inside an error
message no property depends on, so the array case is folded to a
placeholder here. -/
def jToKey : JValue → String
  | .null => "null"
  | .bool b => if b then "true" else "false"
  | .num n => toString n
  | .str s => s
  | .obj _ => "[object Object]"
  | .arr _ => "array"

/-- Property read on an arbitrary value, `undefined` as `none`: object
lookup; anything else (including arrays read at the non-index keys the
source uses) yields `undefined`. -/
def dynGet (v : JValue) (key : String) : Option JValue :=
  match v with
  | .obj fields => alistGet fields key
  | _ => none

/-- Property read defaulting to `null` (the source only ever tests the
result for truthiness or compares it with `===`, and `undefined` and
`null` agree on both for the comparisons performed). -/
def dynGetD (v : JValue) (key : String) : JValue :=
  (dynGet v key).getD .null

/-- Read of field `key` of a node object, `null` when absent. -/
def jGetD (n : JObj) (key : String) : JValue :=
  (alistGet n key).getD .null

/-- Truthiness of an optional string (`undefined` and `''` are falsy). -/
def optTruthy : Option String → Bool
  | none => false
  | some s => s != ""

/-- One `{node, type, index}` entry of an output slot in a workflow's
connection map.  The target (`node`) and input index are stored as the
runtime values the source stores. -/
structure ConnEntry where
  node : JValue
  type : String
  index : JValue
deriving Repr

/-- A workflow document (`WorkflowData`).  Nodes are kept as the dynamic
objects the patch engine walks with dotted paths; the connection map is
keyed by source-node name, each value the `main` output-slot list. -/
structure WorkflowData where
  id : String
  name : String
  active : Bool := false
  nodes : List JObj
  connections : List (String × List (List ConnEntry))
  settings : Option JObj := none
deriving Repr

/-- A typed mutation instruction (`WorkflowChange`).  `changeType` stays a
string so that the source's unknown-kind branch is represented; an absent
`newValue` behaves as `null` (both fail the same truthiness and
object-type guards the source applies to it). -/
structure WorkflowChange where
  changeType : String
  description : String
  nodeName : Option String := none
  path : Option String := none
  newValue : JValue := .null
deriving Repr

/-- The proposal inside an analysis (`suggestedFix`). -/
structure SuggestedFix where
  description : String
  changes : List WorkflowChange
  reversible : Bool := true
deriving Repr

/-- The analysis produced by the external analysis capability
(`ErrorAnalysis`): only the fields the embedded operations read. -/
structure ErrorAnalysis where
  rootCause : String
  explanation : String
  affectedNodes : List String := []
  suggestedFix : SuggestedFix
  confidence : String := "high"
  relatedSkills : List String := []
deriving Repr

/-- Per-change outcome (`ChangeResult`); a change that the source exits by
throwing is recorded as a failure carrying the exception message, exactly
how `applyFix`'s catch block treats it. -/
structure ChangeResult where
  success : Bool
  error : Option String := none
deriving Repr

/-- Failure result with a message. -/
def changeFail (msg : String) : ChangeResult := { success := false, error := some msg }

/-- Success result. -/
def changeOk : ChangeResult := { success := true }

/-- Decode a string key as a valid array index for a list of the given
length (JS array element access: the key must be the canonical decimal
form of an in-range index). -/
def decodeIndex (k : String) (len : Nat) : Option Nat :=
  match k.toNat? with
  | some n => if n < len ∧ toString n = k then some n else none
  | none => none

/-- Strict-mode property assignment `target[k] = v` on an arbitrary value,
returning the updated value and whether the write succeeded.  Objects
accept any key; arrays are modelled at their in-range element indices
(the source never assigns other keys on an array); primitives and `null`
throw.  A `false` outcome stands for the thrown `TypeError`. -/
def propSet : JValue → String → JValue → JValue × Bool
  | .obj fields, k, v => (.obj (alistSet fields k v), true)
  | .arr elems, k, v =>
    match decodeIndex k elems.length with
    | some i => (.arr (elems.set i v), true)
    | none => (.arr elems, false)
  | t, _, _ => (t, false)

/-- The dotted-path walk of `modifyNode`/`modifySettings`: descend the
parts, creating an empty object wherever the next level is `undefined`,
and assign the final part.  Mutations made before a failing step persist,
as they do on the in-place walked object in the source when the loop
throws midway. -/
def walkSet (cur : JValue) (parts : List String) (v : JValue) : JValue × Bool :=
  match parts with
  | [] => (cur, false)
  | [last] => propSet cur last v
  | p :: rest =>
    match cur with
    | .obj fields =>
      let child := (alistGet fields p).getD (.obj [])
      let r := walkSet child rest v
      (.obj (alistSet fields p r.1), r.2)
    | .arr elems =>
      match decodeIndex p elems.length with
      | some i =>
        let r := walkSet (elems.getD i .null) rest v
        (.arr (elems.set i r.1), r.2)
      | none => (.arr elems, false)
    | prim => (prim, false)

/-- `Object.assign(target, src)` for the mergeable sources the source
guards for: objects merge key by key in order; arrays merge their
elements under the decimal index keys. -/
def jsAssign (target : JObj) (src : JValue) : JObj :=
  match src with
  | .obj fields => fields.foldl (fun acc kv => alistSet acc kv.1 kv.2) target
  | .arr elems =>
    (elems.enum.map (fun p => (toString p.1, p.2))).foldl
      (fun acc kv => alistSet acc kv.1 kv.2) target
  | _ => target

/-- First index satisfying a predicate (`Array.prototype.findIndex`, with
`none` for `-1`). -/
def findIndexP {α : Type} (p : α → Bool) : List α → Option Nat
  | [] => none
  | a :: l => if p a then some 0 else (findIndexP p l).map (· + 1)

/-- `splice(i, 1)`: drop the element at an index. -/
def spliceOut {α : Type} : List α → Nat → List α
  | [], _ => []
  | _ :: l, 0 => l
  | a :: l, n + 1 => a :: spliceOut l n

/-- `split(sep)` over the characters accumulated so far: emit the current
piece at each separator and at the end. -/
def splitOnCharAux (sep : Char) : List Char → List Char → List String
  | [], acc => [String.mk acc.reverse]
  | c :: rest, acc =>
    if c = sep then String.mk acc.reverse :: splitOnCharAux sep rest []
    else splitOnCharAux sep rest (c :: acc)

/-- JS `String.prototype.split` with a single-character separator, as
`change.path.split('.')` uses it: the empty string yields one empty
piece, separators at the edges yield empty pieces. -/
def splitOnChar (sep : Char) (s : String) : List String :=
  splitOnCharAux sep s.data []

/-- `modifyNode`: requires a truthy node name naming an existing node;
with a truthy dotted path, walk-and-set into the node; otherwise the new
value must be an object (or array) and is shallow-merged onto the node;
anything else is an invalid change value. -/
def modifyNode (w : WorkflowData) (c : WorkflowChange) : WorkflowData × ChangeResult :=
  if ¬ optTruthy c.nodeName then (w, changeFail "Node name required for modify_node") else
  let nodeName := c.nodeName.getD ""
  match findIndexP (fun n => jStrEq (jGetD n "name") nodeName) w.nodes with
  | none => (w, changeFail ("Node not found: " ++ nodeName))
  | some i =>
    let node := w.nodes.getD i []
    if optTruthy c.path then
      let pathParts := splitOnChar '.' (c.path.getD "")
      let r := walkSet (.obj node) pathParts c.newValue
      let node' := match r.1 with | .obj f => f | _ => node
      ({ w with nodes := w.nodes.set i node' },
        if r.2 then changeOk else changeFail "TypeError")
    else if jsIsMergeable c.newValue then
      ({ w with nodes := w.nodes.set i (jsAssign node c.newValue) }, changeOk)
    else (w, changeFail "Invalid change value for modify_node")

/-- `generateNodeId` draws on the clock and a random suffix; its exact
value is irrelevant to every property stated here, so the model fixes a
placeholder. -/
def generatedNodeId : String := "node-generated"

/-- `calculatePosition`: place a new node to the right of the rightmost
node at the rounded average height.  A node whose `position` is absent or
`null` makes the source throw (index access on `undefined`); element
values that are not numbers contribute the fallback `0` here where the
source would propagate JS `NaN` into the stored coordinates — a corner no
stated property touches. -/
def calculatePosition (w : WorkflowData) : Option (Int × Int) :=
  if w.nodes.isEmpty then some (250, 300) else
  if w.nodes.any (fun n => jprimEq (jGetD n "position") .null) then none else
  let coord : JObj → Nat → Int := fun n i =>
    match jGetD n "position" with
    | .arr l => match l.getD i .null with | .num x => x | _ => 0
    | _ => 0
  let maxX := w.nodes.foldl (fun acc n => if coord n 0 > acc then coord n 0 else acc) 0
  let sumY := w.nodes.foldl (fun acc n => acc + coord n 1) 0
  let len : Int := w.nodes.length
  some (maxX + 200, Int.fdiv (2 * sumY + len) (2 * len))

/-- `addNode`: the new value must be node-shaped (truthy with truthy
`name` and `type`), the name must be fresh; missing id, type-version,
position and parameters are defaulted, and the node is appended. -/
def addNode (w : WorkflowData) (c : WorkflowChange) : WorkflowData × ChangeResult :=
  let nn := c.newValue
  if ¬ (jTruthy nn ∧ jTruthy (dynGetD nn "name") ∧ jTruthy (dynGetD nn "type")) then
    (w, changeFail "Invalid node definition for add_node")
  else if w.nodes.any (fun n => jprimEq (jGetD n "name") (dynGetD nn "name")) then
    (w, changeFail ("Node already exists: " ++ jToKey (dynGetD nn "name")))
  else
    let idVal := if jTruthy (dynGetD nn "id") then dynGetD nn "id" else .str generatedNodeId
    let tv := if jTruthy (dynGetD nn "typeVersion") then dynGetD nn "typeVersion" else .num 1
    let params := if jTruthy (dynGetD nn "parameters") then dynGetD nn "parameters" else .obj []
    if jTruthy (dynGetD nn "position") then
      let nodeToAdd : JObj :=
        [("id", idVal), ("name", dynGetD nn "name"), ("type", dynGetD nn "type"),
         ("typeVersion", tv), ("position", dynGetD nn "position"), ("parameters", params)]
      ({ w with nodes := w.nodes ++ [nodeToAdd] }, changeOk)
    else
      match calculatePosition w with
      | none => (w, changeFail "TypeError")
      | some (x, y) =>
        let nodeToAdd : JObj :=
          [("id", idVal), ("name", dynGetD nn "name"), ("type", dynGetD nn "type"),
           ("typeVersion", tv), ("position", .arr [.num x, .num y]), ("parameters", params)]
        ({ w with nodes := w.nodes ++ [nodeToAdd] }, changeOk)

/-- `removeNode`: requires a truthy name of an existing node; splices the
node out, deletes its own outgoing-connection entry, and filters every
remaining slot's entries down to those whose target is not the removed
name. -/
def removeNode (w : WorkflowData) (c : WorkflowChange) : WorkflowData × ChangeResult :=
  if ¬ optTruthy c.nodeName then (w, changeFail "Node name required for remove_node") else
  let nodeName := c.nodeName.getD ""
  match findIndexP (fun n => jStrEq (jGetD n "name") nodeName) w.nodes with
  | none => (w, changeFail ("Node not found: " ++ nodeName))
  | some i =>
    let nodes' := spliceOut w.nodes i
    let conns1 := alistDelete w.connections nodeName
    let conns2 := conns1.map (fun kv =>
      (kv.1, kv.2.map (fun slot => slot.filter (fun e => ! jStrEq e.node nodeName))))
    ({ w with nodes := nodes', connections := conns2 }, changeOk)

/-- The `while (main.length <= outputIndex) main.push([])` padding loop of
`modifyConnection`'s add action: each pass appends one empty slot until
the length exceeds the index, so the loop appends exactly
`k + 1 - slots.length` empty slots (none when the index is already in
range). -/
def padSlots (slots : List (List ConnEntry)) (k : Nat) : List (List ConnEntry) :=
  slots ++ List.replicate (k + 1 - slots.length) []

/-- `modifyConnection`: the new value supplies `{from, to, action,
outputIndex, inputIndex}`; both endpoints are validated against the node
list before anything is mutated.  `add` initialises the source's entry
when absent, pads the output slots and appends the `{to, inputIndex}`
entry; a negative output index makes the source throw after that
initialisation.  `remove` deletes the first entry targeting `to` in the
addressed slot, a no-op when the slot or entry is absent.  A non-numeric
output index is modelled as a thrown add (the source's JS number coercion
of such payloads is not modelled) and as the source's skipped undefined
lookup for remove. -/
def modifyConnection (w : WorkflowData) (c : WorkflowChange) : WorkflowData × ChangeResult :=
  let cc := c.newValue
  let fromV := dynGetD cc "from"
  let toV := dynGetD cc "to"
  if ¬ (jTruthy cc ∧ jTruthy fromV ∧ jTruthy toV) then
    (w, changeFail "Invalid connection change")
  else if ¬ w.nodes.any (fun n => jprimEq (jGetD n "name") fromV) then
    (w, changeFail ("Source node not found: " ++ jToKey fromV))
  else if ¬ w.nodes.any (fun n => jprimEq (jGetD n "name") toV) then
    (w, changeFail ("Target node not found: " ++ jToKey toV))
  else
    let actionV := dynGetD cc "action"
    let outV := (dynGet cc "outputIndex").getD (.num 0)
    let inV := (dynGet cc "inputIndex").getD (.num 0)
    let key := jToKey fromV
    if jprimEq actionV (.str "add") then
      let w1 := match alistGet w.connections key with
        | some _ => w
        | none => { w with connections := alistSet w.connections key [[]] }
      let slots := (alistGet w1.connections key).getD [[]]
      match outV with
      | .num n =>
        if n < 0 then (w1, changeFail "TypeError")
        else
          let k := n.toNat
          let padded := padSlots slots k
          let entry : ConnEntry := { node := toV, type := "main", index := inV }
          let slots' := padded.set k (padded.getD k [] ++ [entry])
          ({ w1 with connections := alistSet w1.connections key slots' }, changeOk)
      | _ => (w1, changeFail "TypeError")
    else if jprimEq actionV (.str "remove") then
      match alistGet w.connections key with
      | none => (w, changeOk)
      | some slots =>
        match outV with
        | .num n =>
          if 0 ≤ n ∧ n.toNat < slots.length then
            let slot := slots.getD n.toNat []
            match findIndexP (fun e => jprimEq e.node toV) slot with
            | none => (w, changeOk)
            | some idx =>
              ({ w with connections :=
                  alistSet w.connections key (slots.set n.toNat (spliceOut slot idx)) },
                changeOk)
          else (w, changeOk)
        | _ => (w, changeOk)
    else (w, changeOk)

/-- `modifySettings`: create the settings map when falsy, then apply the
same path-or-merge semantics as `modifyNode` to it; a change that fits
neither shape still reports success without mutating further. -/
def modifySettings (w : WorkflowData) (c : WorkflowChange) : WorkflowData × ChangeResult :=
  let w1 := match w.settings with
    | some _ => w
    | none => { w with settings := some [] }
  let s := w1.settings.getD []
  if optTruthy c.path then
    let pathParts := splitOnChar '.' (c.path.getD "")
    let r := walkSet (.obj s) pathParts c.newValue
    let s' := match r.1 with | .obj f => f | _ => s
    ({ w1 with settings := some s' }, if r.2 then changeOk else changeFail "TypeError")
  else if jsIsMergeable c.newValue then
    ({ w1 with settings := some (jsAssign s c.newValue) }, changeOk)
  else (w1, changeOk)

/-- `applyChange`: dispatch on the change kind, the unknown kind failing. -/
def applyChange (w : WorkflowData) (c : WorkflowChange) : WorkflowData × ChangeResult :=
  if c.changeType = "modify_node" then modifyNode w c
  else if c.changeType = "add_node" then addNode w c
  else if c.changeType = "remove_node" then removeNode w c
  else if c.changeType = "modify_connection" then modifyConnection w c
  else if c.changeType = "modify_settings" then modifySettings w c
  else (w, changeFail ("Unknown change type: " ++ c.changeType))

/-- The node-list pass of `validateWorkflow`: a falsy name is reported and
skips the rest of that node's checks (`continue`); otherwise duplicates
against the names seen so far and a falsy type are reported. -/
def nodeCheckErrors : List JObj → List JValue → List String
  | [], _ => []
  | n :: rest, seen =>
    let nameV := jGetD n "name"
    if ¬ jTruthy nameV then
      "Node with missing name found" :: nodeCheckErrors rest seen
    else
      (if seen.any (fun s => jprimEq s nameV) then
        ["Duplicate node name: " ++ jToKey nameV] else []) ++
      (if ¬ jTruthy (jGetD n "type") then
        ["Node " ++ jToKey nameV ++ " is missing type"] else []) ++
      nodeCheckErrors rest (seen ++ [nameV])

/-- The set of truthy node names `validateWorkflow` collects. -/
def collectNames (ns : List JObj) : List JValue :=
  (ns.map (fun n => jGetD n "name")).filter jTruthy

/-- `validateWorkflow` as its error list: empty id or name, the node
pass, then every connection source and target checked against the
collected names.  The `Array.isArray(workflow.nodes)` guard always passes
here because `nodes` is a list by construction. -/
def validateWorkflow (w : WorkflowData) : List String :=
  (if w.id = "" then ["Workflow ID is missing"] else []) ++
  (if w.name = "" then ["Workflow name is missing"] else []) ++
  nodeCheckErrors w.nodes [] ++
  (w.connections.foldr (fun kv acc =>
    (if ¬ (collectNames w.nodes).any (fun v => jprimEq v (.str kv.1)) then
      ["Connection from non-existent node: " ++ kv.1] else []) ++
    (kv.2.foldr (fun slot acc2 =>
      (slot.foldr (fun e acc3 =>
        (if ¬ (collectNames w.nodes).any (fun v => jprimEq v e.node) then
          ["Connection to non-existent node: " ++ jToKey e.node] else []) ++ acc3) []) ++ acc2)
      []) ++ acc) [])

/-- `JSON.parse(JSON.stringify(workflow))`: every value of this model is
JSON-representable (no `undefined` members, functions or cycles), so the
round-trip reproduces the document; its significance — the engine
thereafter touches only this copy, never the caller's document — is what
`applyFixTracked` makes explicit. -/
def deepCopyWorkflow (w : WorkflowData) : WorkflowData := w

/-- The outcome of `applyFix` (`PatchResult`). -/
structure PatchResult where
  success : Bool
  patchedWorkflow : Option WorkflowData := none
  error : Option String := none
  appliedChanges : List String
  skippedChanges : List String
deriving Repr

/-- The change loop of `applyFix`: apply each change to the working copy,
recording the description under applied or skipped; a failing or throwing
change leaves its partial mutations in the working copy and processing
continues. -/
def applyChangesLoop (w : WorkflowData) (cs : List WorkflowChange)
    (applied skipped : List String) : WorkflowData × List String × List String :=
  match cs with
  | [] => (w, applied, skipped)
  | c :: rest =>
    let r := applyChange w c
    if r.2.success then
      applyChangesLoop r.1 rest (applied ++ [c.description]) skipped
    else
      applyChangesLoop r.1 rest applied
        (skipped ++ [c.description ++ ": " ++ (r.2.error.getD "")])

/-- `applyFix`: deep-copy the input, run the change loop, fail with no
patched document when nothing applied, fail with no patched document when
the mutated copy does not validate, and return the mutated copy
otherwise. -/
def applyFix (w : WorkflowData) (analysis : ErrorAnalysis) : PatchResult :=
  let r := applyChangesLoop (deepCopyWorkflow w) analysis.suggestedFix.changes [] []
  if r.2.1.length = 0 then
    { success := false, error := some "No changes could be applied",
      appliedChanges := r.2.1, skippedChanges := r.2.2 }
  else if validateWorkflow r.1 ≠ [] then
    { success := false,
      error := some ("Validation failed: " ++ String.intercalate ", " (validateWorkflow r.1)),
      appliedChanges := r.2.1, skippedChanges := r.2.2 }
  else
    { success := true, patchedWorkflow := some r.1,
      appliedChanges := r.2.1, skippedChanges := r.2.2 }

/-- The change loop with the caller's document carried alongside the
working copy: each iteration rewrites the copy only, which is how the
source's in-place mutations, all aimed at the deep copy, relate to the
caller's document. -/
def applyChangesLoopTracked (caller : WorkflowData) (w : WorkflowData)
    (cs : List WorkflowChange) (applied skipped : List String) :
    WorkflowData × WorkflowData × List String × List String :=
  match cs with
  | [] => (caller, w, applied, skipped)
  | c :: rest =>
    let r := applyChange w c
    if r.2.success then
      applyChangesLoopTracked caller r.1 rest (applied ++ [c.description]) skipped
    else
      applyChangesLoopTracked caller r.1 rest applied
        (skipped ++ [c.description ++ ": " ++ (r.2.error.getD "")])

/-- `applyFix` with the caller's document threaded through the whole
computation, returned next to the result. -/
def applyFixTracked (w : WorkflowData) (analysis : ErrorAnalysis) :
    WorkflowData × PatchResult :=
  let r := applyChangesLoopTracked w (deepCopyWorkflow w) analysis.suggestedFix.changes [] []
  (r.1,
    if r.2.2.1.length = 0 then
      { success := false, error := some "No changes could be applied",
        appliedChanges := r.2.2.1, skippedChanges := r.2.2.2 }
    else if validateWorkflow r.2.1 ≠ [] then
      { success := false,
        error := some ("Validation failed: " ++
          String.intercalate ", " (validateWorkflow r.2.1)),
        appliedChanges := r.2.2.1, skippedChanges := r.2.2.2 }
    else
      { success := true, patchedWorkflow := some r.2.1,
        appliedChanges := r.2.2.1, skippedChanges := r.2.2.2 })

/-- The error categories of `ErrorCategory`. -/
inductive ErrorCategory where
  | authentication | network | validation | configuration | rate_limit
  | data_format | missing_data | timeout | permission | unknown
deriving Repr, DecidableEq

/-- Severity levels of a parsed error. -/
inductive Severity where
  | critical | error | warning
deriving Repr, DecidableEq

/-- One source regex, all of which are literal fragments separated by
`.*` gaps, with or without the `i` flag.  (The JS dot does not match a
newline; the gap here may, a divergence only for patterns spanning an
embedded newline.) -/
structure JsPattern where
  ci : Bool
  parts : List String
deriving Repr

/-- Fragments occur left to right: consume the text up to and including
the first occurrence of each fragment in turn. -/
def gapMatch : String → List String → Bool
  | _, [] => true
  | s, p :: rest =>
    match s.splitOn p with
    | [] => false
    | [_] => false
    | _ :: tailPieces => gapMatch (String.intercalate p tailPieces) rest

/-- Whether one source pattern matches the text. -/
def patMatches (s : String) (p : JsPattern) : Bool :=
  gapMatch (if p.ci then s.toLower else s) p.parts

/-- Case-insensitive pattern. -/
def pci (parts : List String) : JsPattern := { ci := true, parts := parts }

/-- Case-sensitive pattern. -/
def pcs (parts : List String) : JsPattern := { ci := false, parts := parts }

/-- `ERROR_PATTERNS` in its table order, which encodes match priority. -/
def ERROR_PATTERNS : List (ErrorCategory × List JsPattern) :=
  [(.authentication,
    [pci ["authentication failed"], pci ["unauthorized"], pci ["invalid", "credentials"],
     pcs ["401"], pci ["access", "denied"], pci ["invalid", "token"], pci ["expired", "token"]]),
   (.network,
    [pcs ["ECONNREFUSED"], pcs ["ENOTFOUND"], pcs ["ETIMEDOUT"], pci ["network", "error"],
     pci ["connection", "failed"], pci ["socket", "error"], pci ["dns", "error"]]),
   (.validation,
    [pci ["validation", "failed"], pci ["invalid", "input"], pci ["required", "field"],
     pci ["schema", "error"], pci ["type", "error"], pci ["invalid", "format"]]),
   (.configuration,
    [pci ["configuration", "error"], pci ["missing", "configuration"],
     pci ["invalid", "setting"], pci ["not", "configured"], pci ["parameter", "missing"]]),
   (.rate_limit,
    [pci ["rate", "limit"], pci ["too", "many", "requests"], pcs ["429"],
     pci ["throttl"], pci ["quota", "exceeded"]]),
   (.data_format,
    [pci ["json", "parse"], pci ["unexpected", "token"], pci ["invalid", "json"],
     pci ["xml", "parse"], pci ["malformed"]]),
   (.missing_data,
    [pci ["undefined"], pci ["null"], pci ["not", "found"], pcs ["404"],
     pci ["does", "not", "exist"], pci ["no", "data"], pci ["empty", "response"]]),
   (.timeout,
    [pci ["timeout"], pci ["timed", "out"], pci ["deadline", "exceeded"],
     pci ["operation", "took", "too", "long"]]),
   (.permission,
    [pci ["permission", "denied"], pci ["forbidden"], pcs ["403"], pci ["not", "allowed"],
     pci ["insufficient", "permissions"]]),
   (.unknown, [])]

/-- The category loop of `parseError`: the first category in table order
with a matching pattern, `unknown` when none matches. -/
def determineCategory (fullText : String) : ErrorCategory :=
  match ERROR_PATTERNS.find? (fun cp => cp.2.any (patMatches fullText)) with
  | some cp => cp.1
  | none => .unknown

/-- JS `\w`. -/
def isWordChar (c : Char) : Bool := c.isAlphanum || c = '_'

/-- The regex `node\s+['"]?(\w+)['"]?` attempted at one position: the
word `node` case-insensitively, at least one whitespace, an optional
quote, then a captured nonempty word-character run. -/
def tryNodeAt (cs : List Char) : Option String :=
  if (cs.take 4).map Char.toLower = ['n', 'o', 'd', 'e'] ∧ 4 ≤ cs.length then
    let rest := cs.drop 4
    let ws := rest.takeWhile Char.isWhitespace
    if ws.isEmpty then none
    else
      let rest2 := rest.drop ws.length
      let rest3 := match rest2 with
        | c :: t => if c = '\'' ∨ c = '"' then t else rest2
        | [] => rest2
      let word := rest3.takeWhile isWordChar
      if word.isEmpty then none else some (String.mk word)
  else none

/-- Leftmost match of the node-name regex: try each position in turn. -/
def extractNodeNameAux : List Char → Option String
  | [] => none
  | c :: rest =>
    match tryNodeAt (c :: rest) with
    | some w => some w
    | none => extractNodeNameAux rest

/-- `fullText.match(/node\s+['"]?(\w+)['"]?/i)`'s captured group. -/
def extractNodeName (s : String) : Option String :=
  extractNodeNameAux s.data

/-- The stop-word list of `extractKeywords`. -/
def stopWords : List String :=
  ["the", "a", "an", "is", "was", "are", "were", "be", "been", "being",
   "have", "has", "had", "do", "does", "did", "will", "would", "could",
   "should", "may", "might", "must", "shall", "can", "need", "dare",
   "ought", "used", "to", "of", "in", "for", "on", "with", "at", "by",
   "from", "as", "into", "through", "during", "before", "after", "above",
   "below", "between", "under", "again", "further", "then", "once",
   "here", "there", "when", "where", "why", "how", "all", "each", "few",
   "more", "most", "other", "some", "such", "no", "nor", "not", "only",
   "own", "same", "so", "than", "too", "very", "just", "and", "but",
   "if", "or", "because", "until", "while", "this", "that", "these",
   "those", "error", "failed", "failure"]

/-- First-seen-order deduplication (`new Set(words)` iteration order). -/
def dedupFirst : List String → List String → List String
  | _, [] => []
  | seen, w :: rest =>
    if seen.contains w then dedupFirst seen rest
    else w :: dedupFirst (seen ++ [w]) rest

/-- `extractKeywords`: lowercase, non-word non-space characters to
spaces, split on whitespace, keep words longer than three characters that
are not stop words, deduplicate in first-seen order, take twenty. -/
def extractKeywords (text : String) : List String :=
  let lowered := text.toLower
  let cleaned := String.mk (lowered.data.map
    (fun c => if isWordChar c || c.isWhitespace then c else ' '))
  let words := (cleaned.split Char.isWhitespace).filter
    (fun w => decide (w.length > 3) && !(stopWords.contains w))
  (dedupFirst [] words).take 20

/-- The severity assignment of `parseError`, the if-chain on the
category. -/
def severityFromCategory (c : ErrorCategory) : Severity :=
  if c = .authentication ∨ c = .permission then .critical
  else if c = .rate_limit ∨ c = .timeout then .warning
  else .error

/-- The inbound failure report (`ErrorPayload`). -/
structure ErrorPayload where
  workflowId : String
  workflowName : Option String := none
  executionId : Option String := none
  errorMessage : String
  errorStack : Option String := none
  nodeType : Option String := none
  nodeName : Option String := none
deriving Repr

/-- The classifier's output (`ParsedError`); the resolved node type is
kept as the runtime value the source assigns from a dynamic node. -/
structure ParsedError where
  category : ErrorCategory
  nodeType : Option JValue := none
  nodeName : Option String := none
  affectedAreas : List String
  keywords : List String
  severity : Severity
deriving Repr

/-- `parseError`: categorise the concatenated message and stack, extract
a node name from the text when the payload carries none, resolve the node
type by exact name lookup in the supplied workflow when absent, derive
affected-area tags, keywords and severity. -/
def parseError (payload : ErrorPayload) (workflow : Option WorkflowData) : ParsedError :=
  let fullText := payload.errorMessage ++ " " ++ payload.errorStack.getD ""
  let category := determineCategory fullText
  let nodeName :=
    if optTruthy payload.nodeName then payload.nodeName
    else match extractNodeName fullText with
      | some w => some w
      | none => payload.nodeName
  let nodeType0 : Option JValue := payload.nodeType.map .str
  let nodeType :=
    match workflow with
    | some wf =>
      if optTruthy nodeName ∧ ¬ jTruthy ((nodeType0).getD .null) then
        match wf.nodes.find? (fun n => jStrEq (jGetD n "name") (nodeName.getD "")) with
        | some node => some (jGetD node "type")
        | none => nodeType0
      else nodeType0
    | none => nodeType0
  let affectedAreas :=
    (if jTruthy (nodeType.getD .null) then ["node:" ++ jToKey (nodeType.getD .null)] else []) ++
    (if category = .authentication then ["credentials"] else []) ++
    (if category = .network ∨ category = .timeout then ["external_service"] else []) ++
    (if category = .validation ∨ category = .data_format then ["input_data"] else [])
  { category := category
    nodeType := nodeType
    nodeName := nodeName
    affectedAreas := affectedAreas
    keywords := extractKeywords fullText
    severity := severityFromCategory category }

/-- Lifecycle status of an approval record. -/
inductive ApprovalStatus where
  | pending | approved | rejected | expired | applied
deriving Repr, DecidableEq

/-- Role of a conversation turn. -/
inductive ConvRole where
  | user | assistant
deriving Repr, DecidableEq

/-- One conversation-history entry of an approval record. -/
structure ConversationMessage where
  role : ConvRole
  content : String
  timestamp : Nat
deriving Repr

/-- An approval record (`ApprovalRecord`): the stateful entity the store
owns.  Timestamps are epoch milliseconds. -/
structure ApprovalRecord where
  id : String
  workflowId : String
  workflowName : String := ""
  executionId : Option String := none
  analysis : ErrorAnalysis
  proposal : SuggestedFix
  originalWorkflow : WorkflowData
  status : ApprovalStatus := .pending
  createdAt : Nat := 0
  expiresAt : Nat := 0
  slackMessageTs : Option String := none
  slackChannelId : Option String := none
  conversationHistory : List ConversationMessage := []
  nodeDocumentation : Option String := none
deriving Repr

/-- `DEFAULT_TTL_MS`, twenty-four hours. -/
def DEFAULT_TTL_MS : Nat := 24 * 60 * 60 * 1000

/-- `ApprovalStore.create`: whatever the caller supplied, the stored
record starts pending with the configured TTL from now. -/
def createRecord (input : ApprovalRecord) (now : Nat) : ApprovalRecord :=
  { input with status := .pending, createdAt := now, expiresAt := now + DEFAULT_TTL_MS }

/-- `ApprovalStore.cleanupExpired` on one record: a pending record whose
expiry has passed flips to expired; every other record is untouched. -/
def sweepRecord (now : Nat) (r : ApprovalRecord) : ApprovalRecord :=
  if r.status = .pending ∧ now > r.expiresAt then { r with status := .expired } else r

/-- `ApprovalStore.cleanupExpired` over the whole table. -/
def cleanupExpired (now : Nat) (table : List ApprovalRecord) : List ApprovalRecord :=
  table.map (sweepRecord now)

/-- Externally observable steps of processing one Slack approve/reject
action, in the order the handler performs them.  `n8nSend` carries the
document handed to the workflow-repository update call. -/
inductive ApproveEvent where
  | statusSet (s : ApprovalStatus)
  | patchAttempt
  | n8nSend (doc : WorkflowData)
  | respondAlready (s : ApprovalStatus)
  | respondNotFound

/-- The `N8nClient.updateWorkflow` request body: the method PUTs its
`data` argument verbatim.  Its signature takes the workflow id and the
document only; the call site in the approval handler passes the original
workflow as a third argument, which this signature has no parameter for,
so no credential merging of any kind happens on the way out. -/
def updateWorkflowBody (data : WorkflowData) : WorkflowData := data

/-- `processAction` for `approve_fix` followed by `handleApproval`: a
missing record answers not-found; a non-pending record answers
already-processed; a pending record is set to approved, the patch is
attempted, and on patch-plus-update success the status becomes applied,
otherwise the status is reset to pending for retry.  `n8nOk` is the
oracle for the external update call; the Slack notification calls catch
their own errors and never affect the record. -/
def processApprove (r : Option ApprovalRecord) (n8nOk : Bool) :
    Option ApprovalRecord × List ApproveEvent :=
  match r with
  | none => (none, [.respondNotFound])
  | some rec =>
    if rec.status ≠ .pending then (some rec, [.respondAlready rec.status])
    else
      let rec1 := { rec with status := .approved }
      let pr := applyFix rec.originalWorkflow rec.analysis
      if pr.success then
        let sent := updateWorkflowBody (pr.patchedWorkflow.getD rec.originalWorkflow)
        if n8nOk then
          (some { rec1 with status := .applied },
            [.statusSet .approved, .patchAttempt, .n8nSend sent, .statusSet .applied])
        else
          (some { rec1 with status := .pending },
            [.statusSet .approved, .patchAttempt, .n8nSend sent, .statusSet .pending])
      else
        (some { rec1 with status := .pending },
          [.statusSet .approved, .patchAttempt, .statusSet .pending])

/-- `processAction` for `reject_fix` followed by `handleRejection`: only
a pending record transitions, to rejected. -/
def processReject (r : Option ApprovalRecord) :
    Option ApprovalRecord × List ApproveEvent :=
  match r with
  | none => (none, [.respondNotFound])
  | some rec =>
    if rec.status ≠ .pending then (some rec, [.respondAlready rec.status])
    else (some { rec with status := .rejected }, [.statusSet .rejected])

/-- `processSuggestion` (a conversational round): a falsy message or a
missing record changes nothing; otherwise, when the external reply call
succeeds, the user message and the assistant reply are appended to the
conversation history — with no look at the record's status.  `tu` and
`ta` are the two entry timestamps. -/
def processSuggestionOp (r : Option ApprovalRecord) (userMessage : String)
    (claudeOk : Bool) (reply : String) (tu ta : Nat) : Option ApprovalRecord :=
  if userMessage = "" then r
  else match r with
    | none => none
    | some rec =>
      if claudeOk then
        let entries : List ConversationMessage :=
          [{ role := .user, content := userMessage, timestamp := tu },
           { role := .assistant, content := reply, timestamp := ta }]
        some { rec with conversationHistory := rec.conversationHistory ++ entries }
      else some rec

/-- `processProposalRequest` (a revision round): a missing record changes
nothing; otherwise, when the external revision call succeeds, the
record's analysis and proposal are replaced by the revised analysis and
the conversation history is cleared — with no look at the record's
status. -/
def processProposalRequestOp (r : Option ApprovalRecord) (claudeOk : Bool)
    (revised : ErrorAnalysis) : Option ApprovalRecord :=
  match r with
  | none => none
  | some rec =>
    if claudeOk then
      some { rec with
              analysis := revised
              proposal := revised.suggestedFix
              conversationHistory := [] }
    else some rec

/-- A system operation on one approval record, with the oracles for the
external calls each needs. -/
inductive SysOp where
  | approveAct (n8nOk : Bool)
  | rejectAct
  | sweep (now : Nat)
  | converse (userMessage reply : String) (claudeOk : Bool) (tu ta : Nat)
  | revise (revised : ErrorAnalysis) (claudeOk : Bool)

/-- The statuses a trace sets, in order. -/
def statusSets (evs : List ApproveEvent) : List ApprovalStatus :=
  evs.filterMap (fun e => match e with | .statusSet s => some s | _ => none)

/-- One system operation applied to one existing record: the updated
record and the sequence of status writes it performed. -/
def sysStep (op : SysOp) (r : ApprovalRecord) : ApprovalRecord × List ApprovalStatus :=
  match op with
  | .approveAct ok =>
    let p := processApprove (some r) ok
    (p.1.getD r, statusSets p.2)
  | .rejectAct =>
    let p := processReject (some r)
    (p.1.getD r, statusSets p.2)
  | .sweep now =>
    if r.status = .pending ∧ now > r.expiresAt then
      (sweepRecord now r, [.expired])
    else (sweepRecord now r, [])
  | .converse userMessage reply ok tu ta =>
    ((processSuggestionOp (some r) userMessage ok reply tu ta).getD r, [])
  | .revise revised ok =>
    ((processProposalRequestOp (some r) ok revised).getD r, [])

/-- The status transitions the specified lifecycle graph allows:
`pending` to approved, rejected or expired, and `approved` to applied or
back to pending on apply failure. -/
def allowedEdge : ApprovalStatus → ApprovalStatus → Bool
  | .pending, .approved => true
  | .pending, .rejected => true
  | .pending, .expired => true
  | .approved, .applied => true
  | .approved, .pending => true
  | _, _ => false

/-- Whether a trace contains a patch attempt. -/
def hasPatchAttempt (evs : List ApproveEvent) : Bool :=
  evs.any (fun e => match e with | .patchAttempt => true | _ => false)

/-- The documents a trace hands to the workflow-repository update. -/
def sentDocs (evs : List ApproveEvent) : List WorkflowData :=
  evs.filterMap (fun e => match e with | .n8nSend d => some d | _ => none)

/-- The category-to-severity table as the specification words it:
authentication and permission are critical, rate_limit and timeout are
warnings, everything else is an error.  Stated from the spec, to be
compared with the classifier's inline severity assignment. -/
def specSeverityTable : ErrorCategory → Severity
  | .authentication => .critical
  | .permission => .critical
  | .rate_limit => .warning
  | .timeout => .warning
  | _ => .error

/-- Fixture: node named A. -/
def nodeA : JObj := [("id", .str "1"), ("name", .str "A"), ("type", .str "t")]

/-- Fixture: node named B. -/
def nodeB : JObj := [("id", .str "2"), ("name", .str "B"), ("type", .str "t")]

/-- Fixture: workflow with nodes [A, B] and the single connection A→B. -/
def wfScenC : WorkflowData :=
  { id := "w1"
    name := "wf"
    nodes := [nodeA, nodeB]
    connections := [("A", [[{ node := .str "B", type := "main", index := .num 0 }]])] }

/-- Fixture: the remove_node(B) change. -/
def removeChangeB : WorkflowChange :=
  { changeType := "remove_node", description := "drop B", nodeName := some "B" }

/-- Fixture: the Scenario D add change, from A to B at output index 2. -/
def addConnChange : WorkflowChange :=
  { changeType := "modify_connection"
    description := "connect"
    newValue := .obj [("from", .str "A"), ("to", .str "B"), ("action", .str "add"),
      ("outputIndex", .num 2)] }

/-- Fixture: the same add change aimed at the absent node C. -/
def addConnChangeToC : WorkflowChange :=
  { changeType := "modify_connection"
    description := "connect"
    newValue := .obj [("from", .str "A"), ("to", .str "C"), ("action", .str "add"),
      ("outputIndex", .num 2)] }

/-- Fixture: node A carrying a credential reference. -/
def nodeCred : JObj :=
  [("id", .str "1"), ("name", .str "A"), ("type", .str "t"),
   ("credentials", .obj [("api", .str "cred-original")])]

/-- Fixture: workflow holding the credentialed node (and no settings). -/
def wCred : WorkflowData :=
  { id := "w1", name := "wf", nodes := [nodeCred], connections := [] }

/-- Fixture: an analysis whose single change rewrites the node's
credential reference through a dotted path. -/
def analysisCred : ErrorAnalysis :=
  { rootCause := "r"
    explanation := "e"
    suggestedFix :=
      { description := "fix"
        changes :=
          [{ changeType := "modify_node", description := "patch credentials",
             nodeName := some "A", path := some "credentials.api",
             newValue := .str "cred-injected" }] } }

/-- Fixture: a pending approval record over the credentialed workflow. -/
def recCred : ApprovalRecord :=
  { id := "a1"
    workflowId := "w1"
    analysis := analysisCred
    proposal := analysisCred.suggestedFix
    originalWorkflow := wCred
    status := .pending }

/-- Fixture: an analysis with an empty change batch. -/
def analysisEmpty : ErrorAnalysis :=
  { rootCause := "r", explanation := "e"
    suggestedFix := { description := "", changes := [] } }

/-- Fixture: a pending record whose proposal has no changes, so its
patch application fails. -/
def recEmptyProposal : ApprovalRecord := { recCred with analysis := analysisEmpty }

/-- Fixture: an approval record already approved, holding one
conversation entry. -/
def recApproved : ApprovalRecord :=
  { recCred with
      status := .approved
      conversationHistory := [{ role := .user, content := "hold on", timestamp := 5 }] }

/-- Fixture: a revised analysis, distinct from `analysisCred`. -/
def analysisRevised : ErrorAnalysis :=
  { rootCause := "another cause"
    explanation := "e2"
    suggestedFix := { description := "fix2", changes := [] } }

/-- Fixture: a modify_settings change carrying a bare number and no
path. -/
def settingsNumChange : WorkflowChange :=
  { changeType := "modify_settings", description := "tweak", newValue := .num 5 }

/-- Fixture: an analysis consisting only of that settings change. -/
def analysisSettingsNum : ErrorAnalysis :=
  { rootCause := "r", explanation := "e"
    suggestedFix := { description := "", changes := [settingsNumChange] } }

/-- Fixture: the credentialed workflow with an (empty) settings map
present. -/
def wCredSettings : WorkflowData := { wCred with settings := some [] }

/-- A modify_connection change with the given endpoints, action value,
output-index value and input-index value. -/
def connActChange (f t : String) (av ov iv : JValue) : WorkflowChange :=
  { changeType := "modify_connection"
    description := ""
    newValue := .obj [("from", .str f), ("to", .str t), ("action", av),
      ("outputIndex", ov), ("inputIndex", iv)] }

/-- An add-action modify_connection change at a concrete output index. -/
def connAddChange (f t : String) (k : Int) (iv : JValue) : WorkflowChange :=
  connActChange f t (.str "add") (.num k) iv

/-- A remove-action modify_connection change at a concrete output
index. -/
def connRemoveChange (f t : String) (k : Int) : WorkflowChange :=
  connActChange f t (.str "remove") (.num k) (.num 0)

theorem trackedLoop_eq (cs : List WorkflowChange) :
    ∀ (caller w : WorkflowData) (applied skipped : List String),
      applyChangesLoopTracked caller w cs applied skipped =
        (caller, applyChangesLoop w cs applied skipped) := by
  induction cs with
  | nil => intro caller w applied skipped; rfl
  | cons c rest ih =>
    intro caller w applied skipped
    simp only [applyChangesLoopTracked, applyChangesLoop]
    split
    · exact ih caller _ _ _
    · exact ih caller _ _ _

theorem severityFromCategory_eq_table (c : ErrorCategory) :
    severityFromCategory c = specSeverityTable c := by
  cases c <;> rfl

/-- C9: for every error report and optional workflow document, the
classifier is total and yields exactly one category of the fixed
ten-member enumeration (unmatched text included, via `unknown`), and the
severity it reports is the fixed table's value for that category:
critical for authentication and permission, warning for rate_limit and
timeout, error otherwise. -/
theorem c9_classify_total_with_fixed_severity :
    ∀ (payload : ErrorPayload) (workflow : Option WorkflowData),
      (parseError payload workflow).category ∈
        [ErrorCategory.authentication, .network, .validation, .configuration,
         .rate_limit, .data_format, .missing_data, .timeout, .permission, .unknown] ∧
      (parseError payload workflow).severity =
        specSeverityTable (parseError payload workflow).category := by
  intro payload workflow
  constructor
  · have h : ∀ c : ErrorCategory, c ∈
        [ErrorCategory.authentication, .network, .validation, .configuration,
         .rate_limit, .data_format, .missing_data, .timeout, .permission, .unknown] := by
      intro c; cases c <;> simp
    exact h _
  · have h : (parseError payload workflow).severity =
        severityFromCategory (parseError payload workflow).category := rfl
    rw [h, severityFromCategory_eq_table]

/-- C6: for every workflow document and analysis, the patch engine never
mutates the caller's document: threading the caller's document through
the entire change loop (whose every write targets the deep copy made on
entry) returns it unchanged, the result agreeing with `applyFix`; and the
JSON round-trip copy itself reproduces the document. -/
theorem c6_applyfix_preserves_caller_document :
    ∀ (w : WorkflowData) (a : ErrorAnalysis),
      (applyFixTracked w a).1 = w ∧
      (applyFixTracked w a).2 = applyFix w a ∧
      deepCopyWorkflow w = w := by
  intro w a
  refine ⟨?_, ?_, rfl⟩
  · unfold applyFixTracked
    rw [trackedLoop_eq]
  · unfold applyFixTracked applyFix
    rw [trackedLoop_eq]

/-- C5: for every workflow document and analysis, `applyFix` returns
failure with no patched document exactly when zero changes applied (the
empty batch and the all-fail batch included) or the fully-mutated copy
fails structural validation; with a successful result the patched
document is exactly the mutated copy. -/
theorem c5_applyfix_failure_characterisation :
    ∀ (w : WorkflowData) (a : ErrorAnalysis),
      (((applyFix w a).success = false ∧ (applyFix w a).patchedWorkflow = none) ↔
        ((applyChangesLoop (deepCopyWorkflow w) a.suggestedFix.changes [] []).2.1 = [] ∨
          validateWorkflow
            (applyChangesLoop (deepCopyWorkflow w) a.suggestedFix.changes [] []).1 ≠ [])) ∧
      ((applyFix w a).success = true →
        (applyFix w a).patchedWorkflow =
          some (applyChangesLoop (deepCopyWorkflow w) a.suggestedFix.changes [] []).1) ∧
      (a.suggestedFix.changes = [] →
        (applyFix w a).success = false ∧ (applyFix w a).patchedWorkflow = none) := by
  intro w a
  unfold applyFix
  by_cases h1 :
      (applyChangesLoop (deepCopyWorkflow w) a.suggestedFix.changes [] []).2.1.length = 0
  · simp only [h1, if_pos rfl]
    refine ⟨?_, ?_, ?_⟩
    · simp [List.length_eq_zero.mp h1]
    · intro h; cases h
    · intro _; exact ⟨rfl, rfl⟩
  · rw [if_neg h1]
    by_cases h2 : validateWorkflow
        (applyChangesLoop (deepCopyWorkflow w) a.suggestedFix.changes [] []).1 ≠ []
    · rw [if_pos h2]
      refine ⟨?_, ?_, ?_⟩
      · simp [h2]
      · intro h; cases h
      · intro hc
        exfalso
        apply h1
        rw [hc]
        rfl
    · rw [if_neg h2]
      refine ⟨?_, ?_, ?_⟩
      · constructor
        · intro h
          cases h.1
        · intro h
          exfalso
          rcases h with h | h
          · exact h1 (by rw [h]; rfl)
          · exact h2 h
      · intro _; rfl
      · intro hc
        exfalso
        apply h1
        rw [hc]
        rfl

/-- C2: for every approval record and system operation (create, approve,
reject with their apply-success and apply-failure outcomes, the expiry
sweep, conversation and revision), the status writes performed follow
the lifecycle edges pending→approved or rejected or expired and
approved→applied or back to pending; the record ends at the last status
written; a record already rejected, expired or applied gets no status
write at all and keeps its status; and a created record starts
pending. -/
theorem c2_lifecycle_status_machine :
    (∀ (op : SysOp) (r : ApprovalRecord),
      List.Chain' (fun a b => allowedEdge a b = true) (r.status :: (sysStep op r).2) ∧
      (r.status :: (sysStep op r).2).getLast (List.cons_ne_nil _ _) =
        (sysStep op r).1.status ∧
      ((r.status = .rejected ∨ r.status = .expired ∨ r.status = .applied) →
        (sysStep op r).2 = [] ∧ (sysStep op r).1.status = r.status)) ∧
    (∀ (input : ApprovalRecord) (now : Nat), (createRecord input now).status = .pending) := by
  constructor
  · intro op r
    cases op with
    | approveAct ok =>
      by_cases hp : r.status = .pending
      · cases hs : (applyFix r.originalWorkflow r.analysis).success with
        | true =>
          cases ok <;>
            simp [sysStep, processApprove, hp, hs, statusSets, allowedEdge,
              List.chain'_cons, List.getLast]
        | false =>
          simp [sysStep, processApprove, hp, hs, statusSets, allowedEdge,
            List.chain'_cons, List.getLast]
      · simp [sysStep, processApprove, hp, statusSets]
    | rejectAct =>
      by_cases hp : r.status = .pending
      · simp [sysStep, processReject, hp, statusSets, allowedEdge,
          List.chain'_cons, List.getLast]
      · simp [sysStep, processReject, hp, statusSets]
    | sweep now =>
      by_cases hp : r.status = .pending ∧ now > r.expiresAt
      · simp [sysStep, sweepRecord, hp, allowedEdge, List.chain'_cons, List.getLast,
          hp.1]
      · simp [sysStep, sweepRecord, hp]
    | converse userMessage reply ok tu ta =>
      by_cases hm : userMessage = "" <;> cases ok <;>
        simp [sysStep, processSuggestionOp, hm, List.getLast]
    | revise revised ok =>
      cases ok <;> simp [sysStep, processProposalRequestOp, List.getLast]
  · intro input now
    rfl

/-- C4 counterexample: with a pending record whose proposal cannot be
applied (empty change batch), the first approve takes the apply-failure
path and resets the status to pending, so a second approve delivered in
sequence observes pending — not a non-pending status — and attempts the
patch again, contradicting the claim as stated. -/
theorem c4_counterexample_second_approve_retries :
    (processApprove (some recEmptyProposal) true).1.map (fun r => r.status) =
      some ApprovalStatus.pending ∧
    hasPatchAttempt
      (processApprove ((processApprove (some recEmptyProposal) true).1) true).2 = true := by
  exact ⟨rfl, rfl⟩

/-- C4 amended: approve always sets the status to approved before any
patch application is attempted; any approve that observes a non-pending
status is answered as already processed and performs no patch
application; hence a second sequential approve performs no patch
application whenever the first left the record non-pending (in
particular after a successful application, as the closing concrete run
shows) — only the explicit apply-failure reset re-opens the record for a
retry, in which case the first application did not happen. -/
theorem c4_amended_approve_sets_status_before_patch :
    (∀ (rec : ApprovalRecord) (ok : Bool), rec.status = .pending →
      ∃ rest, (processApprove (some rec) ok).2 =
        ApproveEvent.statusSet .approved :: ApproveEvent.patchAttempt :: rest) ∧
    (∀ (rec : ApprovalRecord) (ok : Bool), rec.status ≠ .pending →
      processApprove (some rec) ok = (some rec, [ApproveEvent.respondAlready rec.status]) ∧
      hasPatchAttempt (processApprove (some rec) ok).2 = false) ∧
    (∀ (rec rec' : ApprovalRecord) (ok ok' : Bool), rec.status = .pending →
      (processApprove (some rec) ok).1 = some rec' → rec'.status ≠ .pending →
      (processApprove (some rec') ok').2 = [ApproveEvent.respondAlready rec'.status] ∧
      hasPatchAttempt (processApprove (some rec') ok').2 = false) ∧
    ((processApprove (some recCred) true).1.map (fun r => r.status) =
        some ApprovalStatus.applied ∧
      (processApprove ((processApprove (some recCred) true).1) true).2 =
        [ApproveEvent.respondAlready .applied] ∧
      hasPatchAttempt
        (processApprove ((processApprove (some recCred) true).1) true).2 = false) := by
  have halready : ∀ (rec : ApprovalRecord) (ok : Bool), rec.status ≠ .pending →
      processApprove (some rec) ok = (some rec, [ApproveEvent.respondAlready rec.status]) ∧
      hasPatchAttempt (processApprove (some rec) ok).2 = false := by
    intro rec ok hnp
    constructor
    · simp [processApprove, hnp]
    · simp [processApprove, hnp, hasPatchAttempt]
  refine ⟨?_, halready, ?_, ?_⟩
  · intro rec ok hp
    cases hs : (applyFix rec.originalWorkflow rec.analysis).success with
    | false =>
      exact ⟨[ApproveEvent.statusSet .pending], by simp [processApprove, hp, hs]⟩
    | true =>
      cases ok with
      | true =>
        refine ⟨[ApproveEvent.n8nSend (updateWorkflowBody
          ((applyFix rec.originalWorkflow rec.analysis).patchedWorkflow.getD
            rec.originalWorkflow)), ApproveEvent.statusSet .applied], ?_⟩
        simp [processApprove, hp, hs]
      | false =>
        refine ⟨[ApproveEvent.n8nSend (updateWorkflowBody
          ((applyFix rec.originalWorkflow rec.analysis).patchedWorkflow.getD
            rec.originalWorkflow)), ApproveEvent.statusSet .pending], ?_⟩
        simp [processApprove, hp, hs]
  · intro rec rec' ok ok' _ _ hnp
    exact ⟨by rw [(halready rec' ok' hnp).1], (halready rec' ok' hnp).2⟩
  · exact ⟨rfl, rfl, rfl⟩

theorem findIndexP_of_any {α : Type} (p : α → Bool) :
    ∀ (l : List α), l.any p = true → ∃ i, findIndexP p l = some i := by
  intro l
  induction l with
  | nil => intro h; cases h
  | cons a t ih =>
    intro h
    by_cases ha : p a = true
    · exact ⟨0, by simp [findIndexP, ha]⟩
    · have ht : t.any p = true := by
        simp only [List.any_cons, ha, Bool.false_or] at h
        exact h
      obtain ⟨j, hj⟩ := ih ht
      exact ⟨j + 1, by simp [findIndexP, ha, hj]⟩

theorem spliceOut_no_match {α : Type} (p : α → Bool) :
    ∀ (l : List α) (i : Nat), findIndexP p l = some i → l.countP p ≤ 1 →
      ∀ x ∈ spliceOut l i, p x = false := by
  intro l
  induction l with
  | nil => intro i h; cases h
  | cons a t ih =>
    intro i h hc
    by_cases ha : p a = true
    · have hi : i = 0 := by
        simp [findIndexP, ha] at h
        exact h.symm
      subst hi
      have hz : t.countP p = 0 := by
        simp only [List.countP_cons, ha, if_pos] at hc
        omega
      intro x hx
      exact Bool.eq_false_iff.mpr (List.countP_eq_zero.mp hz x hx)
    · have hpa : p a = false := by simpa using ha
      have hc' : t.countP p ≤ 1 := by
        simp only [List.countP_cons, hpa] at hc
        omega
      simp only [findIndexP, hpa, Bool.false_eq_true, if_false, Option.map_eq_some'] at h
      obtain ⟨j, hj, hij⟩ := h
      subst hij
      intro x hx
      rcases List.mem_cons.mp (by simpa [spliceOut] using hx) with hxa | hxt
      · subst hxa; exact hpa
      · exact ih j hj hc' x hxt

theorem alistGet_alistDelete {α : Type} (l : List (String × α)) (k : String) :
    alistGet (alistDelete l k) k = none := by
  induction l with
  | nil => rfl
  | cons kv rest ih =>
    by_cases hk : kv.1 = k
    · simpa [alistDelete, hk] using ih
    · simpa [alistDelete, alistGet, hk] using ih

theorem alistGet_mapVal_none {α β : Type} (f : String → α → β)
    (l : List (String × α)) (k : String) (h : alistGet l k = none) :
    alistGet (l.map (fun kv => (kv.1, f kv.1 kv.2))) k = none := by
  induction l with
  | nil => rfl
  | cons kv rest ih =>
    by_cases hk : kv.1 = k
    · simp [alistGet, hk] at h
    · rw [alistGet, if_neg hk] at h
      rw [List.map_cons, alistGet, if_neg hk]
      exact ih h

/-- C7: for every workflow document in which exactly one node carries the
target name, remove_node succeeds, the resulting node list contains no
node of that name, the removed node's own outgoing-connection entry is
gone, and no remaining output slot holds an entry targeting that name;
and concretely, on the workflow with nodes [A, B] and the connection A→B,
remove_node(B) yields node list [A] and leaves A's connection value with
no entries (a single empty output slot). -/
theorem c7_remove_node_strips_connections :
    (∀ (w : WorkflowData) (x : String), x ≠ "" →
      w.nodes.countP (fun n => jStrEq (jGetD n "name") x) = 1 →
      let r := removeNode w { changeType := "remove_node", description := "", nodeName := some x }
      r.2.success = true ∧
      (∀ n ∈ r.1.nodes, jStrEq (jGetD n "name") x = false) ∧
      alistGet r.1.connections x = none ∧
      (∀ kv ∈ r.1.connections, ∀ slot ∈ kv.2, ∀ e ∈ slot, jStrEq e.node x = false)) ∧
    ((removeNode wfScenC removeChangeB).2.success = true ∧
      (removeNode wfScenC removeChangeB).1.nodes = [nodeA] ∧
      (removeNode wfScenC removeChangeB).1.connections = [("A", [[]])]) := by
  constructor
  · intro w x hx hcount
    have hany : w.nodes.any (fun n => jStrEq (jGetD n "name") x) = true := by
      have hpos : 0 < w.nodes.countP (fun n => jStrEq (jGetD n "name") x) := by omega
      obtain ⟨n, hn, hpn⟩ := List.countP_pos_iff.mp hpos
      exact List.any_eq_true.mpr ⟨n, hn, hpn⟩
    obtain ⟨i, hi⟩ := findIndexP_of_any _ _ hany
    have htr : optTruthy (some x) = true := by simp [optTruthy, hx]
    intro r
    have hr : r = ({ w with
        nodes := spliceOut w.nodes i
        connections := (alistDelete w.connections x).map (fun kv =>
          (kv.1, kv.2.map (fun slot => slot.filter (fun e => ! jStrEq e.node x)))) },
      changeOk) := by
      simp only [r, removeNode, htr, Bool.true_eq_false, not_true_eq_false, if_false,
        Option.getD_some, hi]
    rw [hr]
    refine ⟨rfl, ?_, ?_, ?_⟩
    · intro n hn
      exact spliceOut_no_match _ w.nodes i hi (by omega) n hn
    · exact alistGet_mapVal_none
        (fun _ slots => slots.map (fun slot => slot.filter (fun e => ! jStrEq e.node x)))
        _ _ (alistGet_alistDelete w.connections x)
    · intro kv hkv slot hslot e he
      obtain ⟨kv0, _, hkv0⟩ := List.mem_map.mp hkv
      rw [← hkv0] at hslot
      obtain ⟨slot0, _, hslot0⟩ := List.mem_map.mp hslot
      rw [← hslot0] at he
      have := (List.mem_filter.mp he).2
      simpa using this
  · exact ⟨rfl, rfl, rfl⟩


theorem concat_set_last {α : Type} (L : List α) (a v : α) :
    (L ++ [a]).set L.length v = L ++ [v] := by
  induction L with
  | nil => rfl
  | cons b L ih => simp [ih]

theorem jTruthy_str (s : String) : jTruthy (.str s) = (s != "") := rfl

theorem jTruthy_obj (l : JObj) : jTruthy (.obj l) = true := rfl

theorem jprimEq_str (a b : String) : jprimEq (.str a) (.str b) = (a == b) := rfl

theorem jToKey_str (s : String) : jToKey (.str s) = s := rfl

theorem concat_getElem_last {α : Type} (L : List α) (a : α) :
    (L ++ [a])[L.length]? = some a := by
  induction L with
  | nil => rfl
  | cons b L ih => simp [ih]

theorem padSlots_append_entry (slots : List (List ConnEntry)) (k : Nat)
    (ent : ConnEntry) (hlen : slots.length ≤ k) :
    (padSlots slots k).set k ((padSlots slots k)[k]?.getD [] ++ [ent]) =
      slots ++ List.replicate (k - slots.length) [] ++ [[ent]] := by
  obtain ⟨m, hm⟩ : ∃ m, k = slots.length + m := ⟨k - slots.length, by omega⟩
  subst hm
  have h1 : slots.length + m + 1 - slots.length = m + 1 := by omega
  have h2 : slots.length + m - slots.length = m := by omega
  rw [padSlots, h1, h2, List.replicate_succ', ← List.append_assoc]
  have hL : (slots ++ List.replicate m ([] : List ConnEntry)).length = slots.length + m := by
    simp
  rw [← hL, concat_getElem_last, concat_set_last]
  simp

/-- C8: modify_connection validates that both endpoints name existing
nodes before any mutation, failing when either is absent; for action add
with an output index at or beyond the existing slots it pads with empty
slots until the index exists and appends the `{to, inputIndex}` entry
into the last one — concretely, output index 2 over a single existing
slot inserts two fresh empty slots, the entry landing in the second; for
action remove it deletes the first entry targeting `to` in the addressed
slot, a no-op when no entry matches or the slot does not exist. -/
theorem c8_modify_connection_semantics :
    (∀ (w : WorkflowData) (f t : String) (av ov iv : JValue), f ≠ "" → t ≠ "" →
      (w.nodes.any (fun n => jprimEq (jGetD n "name") (.str f)) = false ∨
        w.nodes.any (fun n => jprimEq (jGetD n "name") (.str t)) = false) →
      (modifyConnection w (connActChange f t av ov iv)).1 = w ∧
      (modifyConnection w (connActChange f t av ov iv)).2.success = false) ∧
    (∀ (w : WorkflowData) (f t : String) (iv : JValue) (k : Nat)
        (slots : List (List ConnEntry)), f ≠ "" → t ≠ "" →
      w.nodes.any (fun n => jprimEq (jGetD n "name") (.str f)) = true →
      w.nodes.any (fun n => jprimEq (jGetD n "name") (.str t)) = true →
      alistGet w.connections f = some slots → slots.length ≤ k →
      modifyConnection w (connAddChange f t (k : Int) iv) =
        ({ w with connections := alistSet w.connections f
                    (slots ++ List.replicate (k - slots.length) [] ++
                      [[{ node := .str t, type := "main", index := iv }]]) }, changeOk)) ∧
    (∀ (w : WorkflowData) (f t : String) (k : Nat) (slots : List (List ConnEntry)),
        f ≠ "" → t ≠ "" →
      w.nodes.any (fun n => jprimEq (jGetD n "name") (.str f)) = true →
      w.nodes.any (fun n => jprimEq (jGetD n "name") (.str t)) = true →
      alistGet w.connections f = some slots →
      (k < slots.length →
        findIndexP (fun e => jprimEq e.node (.str t)) (slots.getD k []) = none →
        modifyConnection w (connRemoveChange f t (k : Int)) = (w, changeOk)) ∧
      (∀ i, k < slots.length →
        findIndexP (fun e => jprimEq e.node (.str t)) (slots.getD k []) = some i →
        modifyConnection w (connRemoveChange f t (k : Int)) =
          ({ w with connections := alistSet w.connections f
                      (slots.set k (spliceOut (slots.getD k []) i)) }, changeOk)) ∧
      (slots.length ≤ k →
        modifyConnection w (connRemoveChange f t (k : Int)) = (w, changeOk))) ∧
    (modifyConnection wfScenC addConnChange =
      ({ wfScenC with connections :=
          [("A", [[{ node := .str "B", type := "main", index := .num 0 }], [],
                  [{ node := .str "B", type := "main", index := .num 0 }]])] }, changeOk) ∧
     modifyConnection wfScenC addConnChangeToC =
      (wfScenC, changeFail "Target node not found: C")) := by
  refine ⟨?_, ?_, ?_, rfl, rfl⟩
  · intro w f t av ov iv hf ht hmiss
    rcases hmiss with hmf | hmt
    · constructor <;>
        simp [modifyConnection, connActChange, dynGetD, dynGet, alistGet, jTruthy_obj,
          jTruthy_str, bne_iff_ne, hf, ht, hmf, changeFail]
    · by_cases hfa : w.nodes.any (fun n => jprimEq (jGetD n "name") (.str f)) = true
      · constructor <;>
          simp [modifyConnection, connActChange, dynGetD, dynGet, alistGet, jTruthy_obj,
            jTruthy_str, bne_iff_ne, hf, ht, hfa, hmt, changeFail]
      · have hmf : w.nodes.any (fun n => jprimEq (jGetD n "name") (.str f)) = false := by
          simpa using hfa
        constructor <;>
          simp [modifyConnection, connActChange, dynGetD, dynGet, alistGet, jTruthy_obj,
            jTruthy_str, bne_iff_ne, hf, ht, hmf, changeFail]
  · intro w f t iv k slots hf ht hfany htany hconn hlen
    simp [modifyConnection, connAddChange, connActChange, dynGetD, dynGet, alistGet,
      jTruthy_obj, jTruthy_str, jprimEq_str, jToKey_str,
      hconn, hfany, htany, bne_iff_ne, hf, ht]
    rw [padSlots_append_entry slots k _ hlen]
    rw [if_neg (by omega : ¬((k : Int) < 0))]
    simp [List.append_assoc]
  · intro w f t k slots hf ht hfany htany hconn
    refine ⟨?_, ?_, ?_⟩
    · intro hk hnone
      simp [modifyConnection, connRemoveChange, connActChange, dynGetD, dynGet, alistGet,
        jTruthy_obj, jTruthy_str, jprimEq_str, jToKey_str, hconn, hfany, htany, bne_iff_ne,
        hf, ht, hk, List.getD] at hnone ⊢
      rw [hnone]
    · intro i hk hsome
      simp [modifyConnection, connRemoveChange, connActChange, dynGetD, dynGet, alistGet,
        jTruthy_obj, jTruthy_str, jprimEq_str, jToKey_str, hconn, hfany, htany, bne_iff_ne,
        hf, ht, hk, List.getD] at hsome ⊢
      rw [hsome]
    · intro hk
      simp [modifyConnection, connRemoveChange, connActChange, dynGetD, dynGet, alistGet,
        jTruthy_obj, jTruthy_str, jprimEq_str, jToKey_str, hconn, hfany, htany, bne_iff_ne,
        hf, ht, Nat.not_lt.mpr hk]

/-- C3 counterexample: a revision request that finds the record already
approved is not dropped — it still replaces the analysis/proposal and
clears the conversation history, contrary to the claim. -/
theorem c3_counterexample_revision_on_approved_record :
    recApproved.status = .approved ∧
    recApproved.conversationHistory ≠ [] ∧
    (processProposalRequestOp (some recApproved) true analysisRevised).map
      (fun r => r.analysis.rootCause) = some "another cause" ∧
    recApproved.analysis.rootCause = "r" ∧
    ("another cause" : String) ≠ "r" ∧
    (processProposalRequestOp (some recApproved) true analysisRevised).map
      (fun r => r.conversationHistory) = some [] := by
  refine ⟨rfl, by simp [recApproved], rfl, rfl, by decide, rfl⟩

/-- C3 amended: a conversation or revision request mutates the record's
state whenever the record exists and the external call succeeds,
regardless of the record's status — a revision found in any status
(pending or not) replaces the analysis/proposal and clears the
conversation history, and a conversational round appends its two entries;
only a missing record, a failed external call, or an empty message leaves
the record untouched. -/
theorem c3_amended_revision_mutates_in_any_status :
    (∀ (rec : ApprovalRecord) (revised : ErrorAnalysis),
      processProposalRequestOp (some rec) true revised =
        some { rec with
                analysis := revised
                proposal := revised.suggestedFix
                conversationHistory := [] }) ∧
    (∀ (rec : ApprovalRecord) (revised : ErrorAnalysis),
      processProposalRequestOp (some rec) false revised = some rec) ∧
    (∀ (ok : Bool) (revised : ErrorAnalysis),
      processProposalRequestOp none ok revised = none) ∧
    (∀ (rec : ApprovalRecord) (msg reply : String) (tu ta : Nat), msg ≠ "" →
      processSuggestionOp (some rec) msg true reply tu ta =
        some { rec with
                conversationHistory := rec.conversationHistory ++
                  [{ role := .user, content := msg, timestamp := tu },
                   { role := .assistant, content := reply, timestamp := ta }] }) ∧
    (∀ (rec : ApprovalRecord) (reply : String) (tu ta : Nat) (ok : Bool),
      processSuggestionOp (some rec) "" ok reply tu ta = some rec) := by
  refine ⟨?_, ?_, ?_, ?_, ?_⟩
  · intro rec revised
    simp [processProposalRequestOp]
  · intro rec revised
    simp [processProposalRequestOp]
  · intro ok revised
    simp [processProposalRequestOp]
  · intro rec msg reply tu ta hm
    simp [processSuggestionOp, hm]
  · intro rec reply tu ta ok
    rfl

theorem modifySettings_nonobject_noop (w : WorkflowData) (c : WorkflowChange)
    (hset : w.settings.isSome = true) (hpath : optTruthy c.path = false)
    (hval : jsIsMergeable c.newValue = false) :
    modifySettings w c = (w, changeOk) := by
  obtain ⟨s, hs⟩ := Option.isSome_iff_exists.mp hset
  simp [modifySettings, hs, hpath, hval]

theorem applyLoop_settings_noop (cs : List WorkflowChange) :
    ∀ (w : WorkflowData) (ap sk : List String), w.settings.isSome = true →
      (∀ c ∈ cs, c.changeType = "modify_settings" ∧ optTruthy c.path = false ∧
        jsIsMergeable c.newValue = false) →
      applyChangesLoop w cs ap sk = (w, ap ++ cs.map (fun c => c.description), sk) := by
  induction cs with
  | nil => intro w ap sk _ _; simp [applyChangesLoop]
  | cons c rest ih =>
    intro w ap sk hset hall
    obtain ⟨hct, hpath, hval⟩ := hall c (List.mem_cons_self c rest)
    have hchange : applyChange w c = (w, changeOk) := by
      simp [applyChange, hct, modifySettings_nonobject_noop w c hset hpath hval]
    simp only [applyChangesLoop, hchange, changeOk, if_pos]
    rw [ih w (ap ++ [c.description]) sk hset
      (fun c' hc' => hall c' (List.mem_cons_of_mem _ hc'))]
    simp

/-- C10 amended: a modify_settings change whose new value is not an
object and that carries no path reports success; the document is left
unchanged provided its settings map is present (when it is absent, the
operation first creates an empty settings map, so the document does
change by that creation); modify_node fails on the same shape; and a
nonempty batch of only such changes over a structurally valid workflow
whose settings map is present yields overall success with a patched
document equal to the input. -/
theorem c10_amended_settings_nonobject_noop :
    (∀ (w : WorkflowData) (c : WorkflowChange), w.settings.isSome = true →
      optTruthy c.path = false → jsIsMergeable c.newValue = false →
      modifySettings w c = (w, changeOk)) ∧
    (∀ (w : WorkflowData) (c : WorkflowChange),
      optTruthy c.path = false → jsIsMergeable c.newValue = false →
      (modifyNode w c).2.success = false) ∧
    (∀ (w : WorkflowData) (a : ErrorAnalysis), w.settings.isSome = true →
      validateWorkflow w = [] → a.suggestedFix.changes ≠ [] →
      (∀ c ∈ a.suggestedFix.changes, c.changeType = "modify_settings" ∧
        optTruthy c.path = false ∧ jsIsMergeable c.newValue = false) →
      (applyFix w a).success = true ∧ (applyFix w a).patchedWorkflow = some w) ∧
    ((applyFix wCredSettings analysisSettingsNum).success = true ∧
      (applyFix wCredSettings analysisSettingsNum).patchedWorkflow = some wCredSettings) := by
  refine ⟨modifySettings_nonobject_noop, ?_, ?_, rfl, rfl⟩
  · intro w c hpath hval
    unfold modifyNode
    by_cases hn : optTruthy c.nodeName = true
    · cases hfi : findIndexP (fun n => jStrEq (jGetD n "name") (c.nodeName.getD "")) w.nodes with
      | none => simp [hn, hfi, changeFail]
      | some i => simp [hn, hfi, hpath, hval, changeFail]
    · have hn' : optTruthy c.nodeName = false := by simpa using hn
      simp [hn', changeFail]
  · intro w a hset hvalid hne hall
    have hloop := applyLoop_settings_noop a.suggestedFix.changes w [] [] hset hall
    simp [applyFix, deepCopyWorkflow, hloop, hvalid, List.length_eq_zero, hne]

/-- C10 counterexample: on a workflow without a settings map, a batch of
one modify_settings change carrying a bare number and no path succeeds,
but the patched document has gained an empty settings map and is not
structurally equal to the input. -/
theorem c10_counterexample_missing_settings_created :
    (applyFix wCred analysisSettingsNum).success = true ∧
    (applyFix wCred analysisSettingsNum).patchedWorkflow =
      some { wCred with settings := some [] } ∧
    wCred.settings = none ∧
    ({ wCred with settings := some [] } : WorkflowData) ≠ wCred := by
  refine ⟨rfl, rfl, rfl, ?_⟩
  intro h
  have hs := congrArg WorkflowData.settings h
  simp [wCred] at hs

/-- C1, evaluated at the failing input: the original workflow's node
carries the credential reference `cred-original`; an approved
modify_node change with the dotted path `credentials.api` rewrites it,
and the document handed to the workflow-repository update call (whose
request body is its document argument verbatim — the `updateWorkflow`
signature has no parameter for the original document the call site
passes) carries `cred-injected`: the credential reference was altered
and never reapplied. -/
theorem c1_bug_credentials_rewritten_and_sent :
    (wCred.nodes.map (fun n => jGetD n "credentials")) =
      [.obj [("api", .str "cred-original")]] ∧
    sentDocs (processApprove (some recCred) true).2 =
      [updateWorkflowBody { wCred with nodes :=
          [[("id", .str "1"), ("name", .str "A"), ("type", .str "t"),
            ("credentials", .obj [("api", .str "cred-injected")])]] }] ∧
    ((sentDocs (processApprove (some recCred) true).2).map
      (fun d => d.nodes.map (fun n => jGetD n "credentials"))) =
      [[.obj [("api", .str "cred-injected")]]] ∧
    (JValue.obj [("api", .str "cred-injected")]) ≠ .obj [("api", .str "cred-original")] := by
  refine ⟨rfl, rfl, rfl, by simp⟩
